import Mathlib

/-!
Shallow embedding of the `fn_macro` crate (src/lib.rs): a derive macro that,
for a struct annotated with `fn_args`, `fn_body` and `fn_output` attributes,
emits `FnOnce`, `FnMut` and `Fn` trait implementations sharing one body.

Modelling conventions:
* A Rust proc-macro token stream is modelled as a `List Tok`, one entry per
  top-level token tree (so the comma in `(f64, f64)` is its own entry, and
  `Vec<u8>` contributes the four entries `Vec`, `<`, `u8`, `>`).
* `syn::Meta` is modelled by `AttrMeta` (path / list-with-tokens / name-value),
  `syn::Attribute` by `Attribute`, and `syn::DeriveInput` by `DeriveInput`
  (the fields `vis`, `generics` and `fields` are carried so that theorems can
  speak about the macro ignoring them).
* Panicking paths (`expect`, `unwrap`) are modelled with `Except String`,
  carrying the panic message.
-/

set_option autoImplicit false

namespace FnDerive

/-- One top-level token tree of a Rust token stream, rendered as text.
A top-level comma is itself one token tree. -/
abbrev Tok := String

/-- The parsed meta item of an attribute (`syn::Meta`): a bare path
(`#[fn_args]`), a parenthesised/braced list with its inner token stream
(`#[fn_args(f64, f64)]`), or a name-value pair (`#[doc = "..."]`). -/
inductive AttrMeta where
  | path : AttrMeta
  | list : List Tok → AttrMeta
  | nameValue : AttrMeta
  deriving DecidableEq, Repr

/-- Whether the meta item is a parenthesised/braced list, i.e. whether
`syn::Meta::require_list` succeeds on it. -/
def AttrMeta.isList : AttrMeta → Bool
  | .list _ => true
  | _ => false

/-- An attribute attached to the struct (`syn::Attribute`): its path
(e.g. `fn_args`) and its meta item. -/
structure Attribute where
  path : String
  meta : AttrMeta
  deriving DecidableEq, Repr

/-- The parsed derive input (`syn::DeriveInput`). Besides the identifier and
the attribute list — the only parts `impl_fn` reads — we carry visibility,
generics and the field list, so that independence from them is statable. -/
structure DeriveInput where
  ident : String
  vis : String
  generics : List String
  fields : List String
  attrs : List Attribute
  deriving DecidableEq, Repr

/-- The panic message of the `expect` in `find_attr`. In the source it is the
string literal "No attribute of type \x7bwanted_attribute\x7d given": `expect`
takes a plain string, so the braces and the attribute name are literal text,
not interpolation. -/
def noAttrMsg : String := "No attribute of type \x7bwanted_attribute\x7d given"

/-- The panic message of the `unwrap` on the result of `Meta::require_list`
(`Result::unwrap` on an `Err` prints the inner `syn::Error`). -/
def requireListMsg : String :=
  "called Result::unwrap on an Err value: expected attribute arguments in parentheses"

/-- Embedding of `find_attr` (src/lib.rs lines 54-60): first attribute whose
path matches the wanted name; the `expect` panic is the error case. -/
def find_attr (attributes : List Attribute) (wanted_attribute : String) :
    Except String Attribute :=
  match attributes.find? (fun attr => attr.path == wanted_attribute) with
  | some attr => .ok attr
  | none => .error noAttrMsg

/-- Embedding of `attr.meta.require_list().unwrap()`: the token stream of a
list-style attribute, a panic otherwise. -/
def require_list (m : AttrMeta) : Except String (List Tok) :=
  match m with
  | .list tokens => .ok tokens
  | _ => .error requireListMsg

/-- The composition `find_attr` then `require_list` that `impl_fn` performs
for each of the three attribute names. -/
def getTokens (attrs : List Attribute) (wanted : String) : Except String (List Tok) :=
  (find_attr attrs wanted).bind (fun attr => require_list attr.meta)

/-- The Rust `usize::div_ceil` operation on `usize` (`a.div_ceil(b)`), used by `impl_fn` as
`count().div_ceil(2)`. -/
def divCeil (a b : Nat) : Nat := (a + b - 1) / b

/-- Which `Fn`-family trait an emitted `impl` block is for. -/
inductive ImplKind where
  | fnOnceImpl
  | fnMutImpl
  | fnImpl
  deriving DecidableEq, Repr

/-- How the emitted method takes `self`: by value (`call_once`), by mutable
reference (`call_mut`), or by shared reference (`call`). -/
inductive Recv where
  | byValue
  | byMutRef
  | bySharedRef
  deriving DecidableEq, Repr

/-- The body of an emitted method: either the forwarding call
`self(args.i0, args.i1, ...)` (recorded by its index list), or the `fn_body`
token fragment spliced verbatim. -/
inductive MethodBody where
  | forward : List Nat → MethodBody
  | spliced : List Tok → MethodBody
  deriving DecidableEq, Repr

/-- One emitted `impl` block of the macro output. -/
structure ImplBlock where
  kind : ImplKind
  selfTy : String
  argTuple : List Tok
  outputTy : Option (List Tok)
  methodName : String
  recv : Recv
  body : MethodBody
  deriving DecidableEq, Repr

/-- The data `impl_fn` splices into its `quote!` template: the struct name,
the `fn_args` tokens, the computed arity, the `fn_body` tokens and the
`fn_output` tokens. -/
structure Generated where
  name : String
  argTuple : List Tok
  arity : Nat
  bodyTokens : List Tok
  outputTokens : List Tok
  deriving DecidableEq, Repr

/-- The three `impl` blocks the `quote!` template at src/lib.rs lines 88-106
expands to, and nothing else: `FnOnce` (with the `Output` associated type,
`call_once` taking `self` by value, body `self(args.0, ..)`), `FnMut`
(`call_mut`, `&mut self`, same forwarding body) and `Fn` (`call`, `&self`,
body the spliced `fn_body` tokens). -/
def Generated.blocks (g : Generated) : List ImplBlock :=
  [ { kind := .fnOnceImpl, selfTy := g.name, argTuple := g.argTuple,
      outputTy := some g.outputTokens, methodName := "call_once",
      recv := .byValue, body := .forward (List.range g.arity) },
    { kind := .fnMutImpl, selfTy := g.name, argTuple := g.argTuple,
      outputTy := none, methodName := "call_mut",
      recv := .byMutRef, body := .forward (List.range g.arity) },
    { kind := .fnImpl, selfTy := g.name, argTuple := g.argTuple,
      outputTy := none, methodName := "call",
      recv := .bySharedRef, body := .spliced g.bodyTokens } ]

/-- Embedding of `impl_fn` (src/lib.rs lines 62-108): look up `fn_args` and
take its token list, compute the arity as `div_ceil` of the token count by 2,
look up `fn_body` and `fn_output` likewise, and splice everything into the
template (`Generated.blocks`). The lookups happen in source order, so the
first failing one determines the panic. -/
def impl_fn (ast : DeriveInput) : Except String Generated :=
  (getTokens ast.attrs "fn_args").bind (fun arg_tokens =>
    (getTokens ast.attrs "fn_body").bind (fun body_tokens =>
      (getTokens ast.attrs "fn_output").map (fun output_tokens =>
        { name := ast.ident, argTuple := arg_tokens,
          arity := divCeil arg_tokens.length 2,
          bodyTokens := body_tokens, outputTokens := output_tokens })))

/-- Embedding of the derive entry point `derive_fn_mut` (src/lib.rs lines
49-52): parse (already done by taking a `DeriveInput`) and run `impl_fn`. -/
def derive_fn_mut (input : DeriveInput) : Except String Generated :=
  impl_fn input

/-- Embedding of the `fn_args` helper attribute macro (src/lib.rs lines
113-116): returns the annotated item unchanged, ignoring its own tokens. -/
def fn_args (_attrTokens item : List Tok) : List Tok := item

/-- Embedding of the `fn_body` helper attribute macro (src/lib.rs lines
121-124). -/
def fn_body (_attrTokens item : List Tok) : List Tok := item

/-- Embedding of the `fn_output` helper attribute macro (src/lib.rs lines
129-132). -/
def fn_output (_attrTokens item : List Tok) : List Tok := item

/-- The number of comma-separated argument types listed in a `fn_args` token
stream: zero for the empty stream, otherwise one more than the number of
top-level commas. -/
def numArgs (tokens : List Tok) : Nat :=
  if tokens.isEmpty then 0 else tokens.count "," + 1

/-!
Runtime semantics of the generated `impl` blocks.

The argument tuple is modelled as a `List V` of values, the struct value as a
`V`, and the meaning of the (uninterpreted) `fn_body` token fragment as an
arbitrary interpretation `interp : List Tok → V → List V → V` of those tokens
on the struct value and the argument tuple.

The forwarding bodies `self(#args)` are overloaded calls, resolved by Rust at
the type of `self`, trying `Fn`, then `FnMut`, then `FnOnce` at the type of
the callee before any deref:
* in `call_once`, `self : Test` and `Test : Fn` holds (the macro itself emits
  that impl), so `self(args.0, ..)` resolves to `Fn::call(&self, (args.0, ..))`
  — the spliced body on the projected tuple;
* in `call_mut`, `self : &mut Test`; the standard library provides
  `impl<F : FnMut> FnMut for &mut F` but no `Fn` impl for `&mut F`, so
  `self(args.0, ..)` resolves to `FnMut::call_mut`, whose blanket impl derefs
  and calls `Test::call_mut` again: the generated `call_mut` recurses into
  itself and never reaches the spliced body. We model this with fuel.
-/

/-- The tuple `(args.0, ..., args.(k-1))` built by the forwarding bodies,
as the projection of the argument list to its first `k` positions. -/
def projArgs {V : Type} [Inhabited V] (args : List V) (k : Nat) : List V :=
  (List.range k).map (fun i => args.getD i default)

/-- Semantics of the generated `Fn::call`: its body is the `fn_body` fragment
itself, evaluated on the struct value and the argument tuple. -/
def genCall {V : Type} [Inhabited V] (interp : List Tok → V → List V → V)
    (g : Generated) (s : V) (args : List V) : V :=
  interp g.bodyTokens s args

/-- Semantics of the generated `FnOnce::call_once`: its body `self(#args)`
resolves to `Fn::call` on the tuple `(args.0, ..., args.(arity-1))`. -/
def genCallOnce {V : Type} [Inhabited V] (interp : List Tok → V → List V → V)
    (g : Generated) (s : V) (args : List V) : V :=
  genCall interp g s (projArgs args g.arity)

/-- Fuelled semantics of the generated `FnMut::call_mut`: its body
`self(#args)` resolves (through the blanket `FnMut` impl for `&mut Test`)
back to `call_mut` itself on the projected tuple, so each step of fuel is one
recursive call and `none` is non-termination within the given fuel. -/
def genCallMutFuel {V : Type} [Inhabited V] (interp : List Tok → V → List V → V)
    (g : Generated) : Nat → V → List V → Option V
  | 0, _, _ => none
  | fuel + 1, s, args => genCallMutFuel interp g fuel s (projArgs args g.arity)

/-! Helper lemmas shared by the claim theorems. -/

theorem projArgs_self {V : Type} [Inhabited V] (args : List V) :
    projArgs args args.length = args := by
  unfold projArgs
  apply List.ext_getElem
  · simp
  · intro i h1 h2
    simp only [List.getElem_map, List.getElem_range]
    simp [List.getD_eq_getElem?_getD, List.getElem?_eq_getElem h2]

theorem genCallMutFuel_none {V : Type} [Inhabited V]
    (interp : List Tok → V → List V → V) (g : Generated) :
    ∀ fuel s args, genCallMutFuel interp g fuel s args = none := by
  intro fuel
  induction fuel with
  | zero => intro s args; rfl
  | succ n ih => intro s args; simpa [genCallMutFuel] using ih s (projArgs args g.arity)

theorem impl_fn_congr (i1 i2 : DeriveInput) (hn : i1.ident = i2.ident)
    (ha : getTokens i1.attrs "fn_args" = getTokens i2.attrs "fn_args")
    (hb : getTokens i1.attrs "fn_body" = getTokens i2.attrs "fn_body")
    (ho : getTokens i1.attrs "fn_output" = getTokens i2.attrs "fn_output") :
    impl_fn i1 = impl_fn i2 := by
  unfold impl_fn
  simp only [ha, hb, ho, hn]

theorem impl_fn_ok_iff (ast : DeriveInput) (g : Generated) :
    impl_fn ast = .ok g ↔
      ∃ ta tb tq, getTokens ast.attrs "fn_args" = .ok ta ∧
        getTokens ast.attrs "fn_body" = .ok tb ∧
        getTokens ast.attrs "fn_output" = .ok tq ∧
        g = { name := ast.ident, argTuple := ta, arity := divCeil ta.length 2,
              bodyTokens := tb, outputTokens := tq } := by
  unfold impl_fn
  cases hA : getTokens ast.attrs "fn_args" with
  | error e => simp [Except.bind]
  | ok ta =>
    cases hB : getTokens ast.attrs "fn_body" with
    | error e => simp [Except.bind]
    | ok tb =>
      cases hO : getTokens ast.attrs "fn_output" with
      | error e => simp [Except.bind, Except.map]
      | ok tq =>
        simp [Except.bind, Except.map]
        constructor
        · intro h; exact h.symm
        · intro h; exact h.symm

theorem find_attr_not_found (attributes : List Attribute) (nm : String)
    (h : ∀ a ∈ attributes, a.path ≠ nm) :
    find_attr attributes nm = .error noAttrMsg := by
  unfold find_attr
  have hnone : attributes.find? (fun attr => attr.path == nm) = none := by
    rw [List.find?_eq_none]
    intro a ha
    simpa using h a ha
  rw [hnone]

theorem getTokens_not_found (attrs : List Attribute) (nm : String)
    (h : ∀ a ∈ attrs, a.path ≠ nm) :
    getTokens attrs nm = .error noAttrMsg := by
  unfold getTokens
  rw [find_attr_not_found attrs nm h]
  rfl

theorem find_attr_unique (l : List Attribute) (nm : String) (a : Attribute)
    (ha : a ∈ l) (hpa : a.path = nm)
    (huniq : ∀ b ∈ l, b.path = nm → b = a) :
    find_attr l nm = .ok a := by
  induction l with
  | nil => cases ha
  | cons c rest ih =>
    by_cases hc : c.path = nm
    · have : c = a := huniq c (List.mem_cons_self c rest) hc
      subst this
      unfold find_attr
      simp [List.find?_cons, hc]
    · have ha' : a ∈ rest := by
        rcases List.mem_cons.mp ha with h | h
        · exact absurd (h ▸ hpa) hc
        · exact h
      have := ih ha' (fun b hb hbnm => huniq b (List.mem_cons_of_mem c hb) hbnm)
      unfold find_attr at this ⊢
      simpa [List.find?_cons, hc] using this

theorem getTokens_total (attrs : List Attribute) (nm : String)
    (hwf : ∀ a ∈ attrs, a.path = nm → a.meta.isList = true) :
    getTokens attrs nm = .error noAttrMsg ∨ ∃ t, getTokens attrs nm = .ok t := by
  unfold getTokens find_attr
  cases hf : attrs.find? (fun attr => attr.path == nm) with
  | none => left; rfl
  | some a =>
    right
    have hmem := List.mem_of_find?_eq_some hf
    have hp : a.path = nm := by simpa using List.find?_some hf
    have hl := hwf a hmem hp
    cases hm : a.meta with
    | list t => exact ⟨t, by simp [Except.bind, require_list, hm]⟩
    | path => simp [AttrMeta.isList, hm] at hl
    | nameValue => simp [AttrMeta.isList, hm] at hl

theorem length_intersperse (sep : Tok) (ts : List Tok) :
    (List.intersperse sep ts).length = 2 * ts.length - 1 := by
  induction ts with
  | nil => rfl
  | cons x xs ih =>
    cases xs with
    | nil => rfl
    | cons y ys =>
      simp only [List.intersperse, List.length_cons] at ih ⊢
      omega

theorem divCeil_intersperse (sep : Tok) (ts : List Tok) :
    divCeil (List.intersperse sep ts).length 2 = ts.length := by
  rw [length_intersperse]
  unfold divCeil
  cases ts with
  | nil => rfl
  | cons x xs => simp only [List.length_cons]; omega

theorem ok_bind {ε α β : Type} (a : α) (f : α → Except ε β) :
    (Except.ok a : Except ε α).bind f = f a := rfl

theorem error_bind {ε α β : Type} (e : ε) (f : α → Except ε β) :
    ((Except.error e : Except ε α).bind f : Except ε β) = Except.error e := rfl

theorem error_map {ε α β : Type} (e : ε) (f : α → β) :
    ((Except.error e : Except ε α).map f : Except ε β) = Except.error e := rfl

theorem find_attr_first_match (pre post : List Attribute) (a : Attribute)
    (nm : String) (hpre : ∀ b ∈ pre, b.path ≠ nm) (hpa : a.path = nm) :
    find_attr (pre ++ a :: post) nm = .ok a := by
  induction pre with
  | nil =>
    unfold find_attr
    rw [List.nil_append, List.find?_cons_of_pos]
    simpa using hpa
  | cons c cs ih =>
    have hc : ((fun attr => attr.path == nm) c) = false := by
      simpa using hpre c (List.mem_cons_self c cs)
    have ih' := ih (fun b hb => hpre b (List.mem_cons_of_mem c hb))
    unfold find_attr at ih' ⊢
    rw [List.cons_append, List.find?_cons_of_neg]
    · exact ih'
    · simp [hc]

/-! Concrete fixtures used by witnesses and counterexamples. The first group
mirrors the usage example in the crate documentation:
`#[fn_args(f64, f64, String)]` is the five token trees below. -/

def exArgsToks : List Tok := ["f64", ",", "f64", ",", "String"]

def exBodyToks : List Tok := ["let", "k", "=", "self.0", "+", "args.0", ";", "k"]

def exOutToks : List Tok := ["String"]

def exAttrs : List Attribute :=
  [⟨"fn_args", .list exArgsToks⟩, ⟨"fn_body", .list exBodyToks⟩,
   ⟨"fn_output", .list exOutToks⟩]

def exInput : DeriveInput := ⟨"Test", "", [], ["f64"], exAttrs⟩

def exGen : Generated := ⟨"Test", exArgsToks, 3, exBodyToks, exOutToks⟩

/-- A sample interpretation of body tokens for the runtime-semantics
witnesses. -/
def interpEx : List Tok → Nat → List Nat → Nat :=
  fun toks s args => s + toks.length + args.length

/-- C1: for every struct annotated with well-formed `fn_args`, `fn_body` and
`fn_output` attributes, the macro emits exactly three trait implementations
for that struct type — `FnOnce::call_once` taking `self` by value,
`FnMut::call_mut` by mutable reference, `Fn::call` by shared reference — and
nothing else. -/
theorem emits_exactly_three_impls (ast : DeriveInput) (g : Generated)
    (h : impl_fn ast = .ok g) :
    g.blocks.length = 3 ∧
    g.blocks.map (fun b => (b.kind, b.methodName, b.recv, b.selfTy)) =
      [(.fnOnceImpl, "call_once", .byValue, ast.ident),
       (.fnMutImpl, "call_mut", .byMutRef, ast.ident),
       (.fnImpl, "call", .bySharedRef, ast.ident)] := by
  rcases (impl_fn_ok_iff ast g).mp h with ⟨ta, tb, tq, _, _, _, hg⟩
  subst hg
  simp [Generated.blocks]

theorem emits_exactly_three_impls_w :
    exGen.blocks.length = 3 ∧
    exGen.blocks.map (fun b => (b.kind, b.methodName, b.recv, b.selfTy)) =
      [(.fnOnceImpl, "call_once", .byValue, "Test"),
       (.fnMutImpl, "call_mut", .byMutRef, "Test"),
       (.fnImpl, "call", .bySharedRef, "Test")] :=
  emits_exactly_three_impls exInput exGen (by rfl)

/-! C2 fixtures: a single argument type `Vec<u8>` spanning four token
trees. -/

def c2ArgsToks : List Tok := ["Vec", "<", "u8", ">"]

def c2Input : DeriveInput :=
  ⟨"Wrap", "", [], [],
   [⟨"fn_args", .list c2ArgsToks⟩, ⟨"fn_body", .list ["args.0"]⟩,
    ⟨"fn_output", .list ["u8"]⟩]⟩

def c2Gen : Generated := ⟨"Wrap", c2ArgsToks, 2, ["args.0"], ["u8"]⟩

/-- C2 counterexample: the `fn_args` list `Vec < u8 >` lists one
comma-separated argument type but spans four tokens, and the generated
`call_once` and `call_mut` forward two tuple elements (`args.0`, `args.1`),
not one: the macro counts tokens, not comma-separated types. -/
theorem forwarded_arity_mismatch_cex :
    numArgs c2ArgsToks = 1 ∧
    impl_fn c2Input = .ok c2Gen ∧
    c2Gen.blocks.map ImplBlock.body =
      [.forward [0, 1], .forward [0, 1], .spliced ["args.0"]] ∧
    List.range (numArgs c2ArgsToks) ≠ [0, 1] := by
  refine ⟨by rfl, by rfl, by rfl, by decide⟩

/-- C2 amended: when every listed argument type consists of a single token
(so the `fn_args` tokens are the types interspersed with commas), the
generated `call_once` and `call_mut` forward exactly `n` tuple elements,
`args.0` through `args.(n-1)`, for the `n` listed types. -/
theorem forwards_n_elements_for_single_token_types
    (name vis : String) (gens flds : List String) (ts tb tq : List Tok) :
    (impl_fn ⟨name, vis, gens, flds,
        [⟨"fn_args", .list (List.intersperse "," ts)⟩,
         ⟨"fn_body", .list tb⟩, ⟨"fn_output", .list tq⟩]⟩).map
      (fun g => (g.arity, g.blocks.map ImplBlock.body)) =
    .ok (ts.length,
      [.forward (List.range ts.length), .forward (List.range ts.length),
       .spliced tb]) := by
  have harity : divCeil (List.intersperse "," ts).length 2 = ts.length :=
    divCeil_intersperse "," ts
  show Except.map _ (Except.ok
      (⟨name, List.intersperse "," ts,
        divCeil (List.intersperse "," ts).length 2, tb, tq⟩ : Generated)) = _
  simp [Except.map, Generated.blocks, harity]

/-- C3 (code-bug evidence): on a well-typed argument tuple (length equal to
the computed arity) the generated `call_once` agrees with `call` — both
evaluate the `fn_body` fragment on the original arguments — but the generated
`call_mut` never returns: for every amount of fuel its forwarding call
`self(args.0, ..)` re-enters `call_mut` without reaching the body. -/
theorem call_mut_never_reaches_body (V : Type) [Inhabited V]
    (interp : List Tok → V → List V → V) (g : Generated) (s : V)
    (args : List V) (h : args.length = g.arity) :
    genCallOnce interp g s args = genCall interp g s args ∧
    genCall interp g s args = interp g.bodyTokens s args ∧
    ∀ fuel, genCallMutFuel interp g fuel s args = none := by
  refine ⟨?_, rfl, fun fuel => genCallMutFuel_none interp g fuel s args⟩
  unfold genCallOnce
  rw [← h, projArgs_self]

theorem call_mut_never_reaches_body_w :
    genCallOnce interpEx exGen 7 [1, 2, 3] = genCall interpEx exGen 7 [1, 2, 3] ∧
    genCall interpEx exGen 7 [1, 2, 3] = interpEx exGen.bodyTokens 7 [1, 2, 3] ∧
    genCallMutFuel interpEx exGen 100 7 [1, 2, 3] = none :=
  ⟨(call_mut_never_reaches_body Nat interpEx exGen 7 [1, 2, 3] (by rfl)).1,
   (call_mut_never_reaches_body Nat interpEx exGen 7 [1, 2, 3] (by rfl)).2.1,
   (call_mut_never_reaches_body Nat interpEx exGen 7 [1, 2, 3] (by rfl)).2.2 100⟩

/-- C4: token splicing is verbatim — the captured `fn_args` tokens appear
unchanged as the tuple parameter of all three impl blocks, the captured
`fn_output` tokens unchanged as the `Output` associated type (declared on the
`FnOnce` impl), and the captured `fn_body` tokens unchanged as the body of the
call-by-reference (`Fn`) impl. -/
theorem splicing_is_verbatim (ast : DeriveInput) (g : Generated)
    (ta tb tq : List Tok) (h : impl_fn ast = .ok g)
    (ha : getTokens ast.attrs "fn_args" = .ok ta)
    (hb : getTokens ast.attrs "fn_body" = .ok tb)
    (ho : getTokens ast.attrs "fn_output" = .ok tq) :
    g.blocks.map ImplBlock.argTuple = [ta, ta, ta] ∧
    g.blocks.map ImplBlock.outputTy = [some tq, none, none] ∧
    g.blocks.map ImplBlock.body =
      [.forward (List.range g.arity), .forward (List.range g.arity),
       .spliced tb] := by
  rcases (impl_fn_ok_iff ast g).mp h with ⟨ta2, tb2, tq2, ha2, hb2, ho2, hg⟩
  rw [ha] at ha2
  rw [hb] at hb2
  rw [ho] at ho2
  injection ha2 with ha3
  injection hb2 with hb3
  injection ho2 with ho3
  subst ha3
  subst hb3
  subst ho3
  subst hg
  simp [Generated.blocks]

theorem splicing_is_verbatim_w :
    exGen.blocks.map ImplBlock.argTuple = [exArgsToks, exArgsToks, exArgsToks] ∧
    exGen.blocks.map ImplBlock.outputTy = [some exOutToks, none, none] ∧
    exGen.blocks.map ImplBlock.body =
      [.forward (List.range exGen.arity), .forward (List.range exGen.arity),
       .spliced exBodyToks] :=
  splicing_is_verbatim exInput exGen exArgsToks exBodyToks exOutToks
    (by rfl) (by rfl) (by rfl) (by rfl)

/-! C5 fixture: same name and same extracted token groups as `exInput`, but
different visibility, generics, fields, an unrelated attribute, and a later
duplicate `fn_args` attribute. -/

def exInput2 : DeriveInput :=
  ⟨"Test", "pub", ["T"], ["u32", "u32"],
   [⟨"doc", .nameValue⟩, ⟨"fn_args", .list exArgsToks⟩,
    ⟨"fn_body", .list exBodyToks⟩, ⟨"fn_output", .list exOutToks⟩,
    ⟨"fn_args", .list ["bogus"]⟩]⟩

/-- C5: the output token stream is a deterministic function of only the
struct name and the three extracted token groups — any two inputs agreeing on
those four pieces (whatever their fields, generics, visibility, or other
attributes) get identical output, including identical panic behaviour. -/
theorem output_depends_only_on_name_and_tokens (i1 i2 : DeriveInput)
    (hn : i1.ident = i2.ident)
    (ha : getTokens i1.attrs "fn_args" = getTokens i2.attrs "fn_args")
    (hb : getTokens i1.attrs "fn_body" = getTokens i2.attrs "fn_body")
    (ho : getTokens i1.attrs "fn_output" = getTokens i2.attrs "fn_output") :
    impl_fn i1 = impl_fn i2 :=
  impl_fn_congr i1 i2 hn ha hb ho

theorem output_depends_only_on_name_and_tokens_w :
    impl_fn exInput = impl_fn exInput2 :=
  output_depends_only_on_name_and_tokens exInput exInput2
    (by rfl) (by rfl) (by rfl) (by rfl)

/-- C6: the three helper attribute macros are inert annotations — each
returns the annotated item token stream unchanged, and its result does not
depend on its own argument tokens at all. -/
theorem helper_attrs_are_inert (a a2 item : List Tok) :
    fn_args a item = item ∧ fn_body a item = item ∧ fn_output a item = item ∧
    fn_args a item = fn_args a2 item ∧ fn_body a item = fn_body a2 item ∧
    fn_output a item = fn_output a2 item :=
  ⟨rfl, rfl, rfl, rfl, rfl, rfl⟩

/-! C7 fixtures. -/

def c7Input : DeriveInput := ⟨"S", "", [], [], [⟨"fn_args", .path⟩]⟩

def c7wInput : DeriveInput := ⟨"S2", "", [], [], [⟨"fn_args", .list ["u8"]⟩]⟩

/-- C7 counterexample: this input lacks `fn_body` (and `fn_output`), yet the
panic is the `unwrap` panic of `require_list` — `fn_args` is present but is a
bare path, looked up before `fn_body` — not the literal `find_attr`
message. -/
theorem missing_attr_panic_msg_cex :
    (∀ a ∈ c7Input.attrs, a.path ≠ "fn_body") ∧
    impl_fn c7Input = .error requireListMsg ∧
    requireListMsg ≠ noAttrMsg := by
  refine ⟨by decide, by rfl, by decide⟩

/-- C7 amended: for every input whose attribute list lacks one of `fn_args`,
`fn_body` or `fn_output`, and on which each of those three that is present is
a parenthesised list, the macro panics with exactly the literal string
"No attribute of type \x7bwanted_attribute\x7d given" — the same constant
whichever attribute is missing, the name never interpolated. -/
theorem missing_attr_panics_with_literal (ast : DeriveInput)
    (hwf : ∀ a ∈ ast.attrs,
      (a.path = "fn_args" ∨ a.path = "fn_body" ∨ a.path = "fn_output") →
      a.meta.isList = true)
    (hmiss : (∀ a ∈ ast.attrs, a.path ≠ "fn_args") ∨
             (∀ a ∈ ast.attrs, a.path ≠ "fn_body") ∨
             (∀ a ∈ ast.attrs, a.path ≠ "fn_output")) :
    impl_fn ast = .error noAttrMsg ∧
    noAttrMsg = "No attribute of type \x7bwanted_attribute\x7d given" := by
  refine ⟨?_, rfl⟩
  have hwfA : ∀ a ∈ ast.attrs, a.path = "fn_args" → a.meta.isList = true :=
    fun a haa hp => hwf a haa (Or.inl hp)
  have hwfB : ∀ a ∈ ast.attrs, a.path = "fn_body" → a.meta.isList = true :=
    fun a haa hp => hwf a haa (Or.inr (Or.inl hp))
  unfold impl_fn
  rcases hmiss with hm | hm | hm
  · simp only [getTokens_not_found ast.attrs "fn_args" hm, error_bind]
  · rcases getTokens_total ast.attrs "fn_args" hwfA with he | ⟨t, ht⟩
    · simp only [he, error_bind]
    · simp only [ht, ok_bind, getTokens_not_found ast.attrs "fn_body" hm,
        error_bind]
  · rcases getTokens_total ast.attrs "fn_args" hwfA with he | ⟨t, ht⟩
    · simp only [he, error_bind]
    · rcases getTokens_total ast.attrs "fn_body" hwfB with he2 | ⟨t2, ht2⟩
      · simp only [ht, ok_bind, he2, error_bind]
      · simp only [ht, ht2, ok_bind,
          getTokens_not_found ast.attrs "fn_output" hm, error_map]

theorem missing_attr_panics_with_literal_w :
    impl_fn c7wInput = .error noAttrMsg ∧
    noAttrMsg = "No attribute of type \x7bwanted_attribute\x7d given" :=
  missing_attr_panics_with_literal c7wInput (by decide)
    (Or.inr (Or.inl (by decide)))

/-! C8 fixtures: a single argument type `&u8` spanning exactly two token
trees. -/

def c8Input : DeriveInput :=
  ⟨"Ref", "", [], [],
   [⟨"fn_args", .list ["&", "u8"]⟩, ⟨"fn_body", .list ["args.0"]⟩,
    ⟨"fn_output", .list ["u8"]⟩]⟩

def c8Gen : Generated := ⟨"Ref", ["&", "u8"], 1, ["args.0"], ["u8"]⟩

/-- C8 counterexample: the single argument type `&u8` spans two token trees —
more than one token — yet the generated forwarding has exactly one tuple
element `args.0`, not more than one: `div_ceil(2, 2) = 1`. -/
theorem multi_token_type_one_element_cex :
    numArgs ["&", "u8"] = 1 ∧
    (["&", "u8"] : List Tok).length = 2 ∧
    impl_fn c8Input = .ok c8Gen ∧
    c8Gen.blocks.map ImplBlock.body =
      [.forward [0], .forward [0], .spliced ["args.0"]] ∧
    ¬ 1 < (List.range c8Gen.arity).length := by
  refine ⟨by rfl, by rfl, by rfl, by rfl, by decide⟩

/-- C8 amended: the number of forwarded tuple elements is exactly the ceiling
of t/2, where t is the number of top-level tokens of the `fn_args` stream
(commas counted): the general formula, the fact that `div_ceil` by 2 is the
ceiling, the shape of the three bodies, the empty list giving zero forwarded
elements (a bare `self()` call), that a nonempty comma-free stream is a
single argument type, and that a single type spanning k tokens contributes
more than one forwarded element exactly when k is at least 3 — a two-token
type still contributes exactly one. -/
theorem forward_count_is_ceil_half_token_count :
    (∀ (name vis : String) (gens flds : List String) (ta tb tq : List Tok),
      impl_fn ⟨name, vis, gens, flds,
          [⟨"fn_args", .list ta⟩, ⟨"fn_body", .list tb⟩,
           ⟨"fn_output", .list tq⟩]⟩ =
        .ok ⟨name, ta, divCeil ta.length 2, tb, tq⟩) ∧
    (∀ t : Nat, divCeil t 2 = (t + 1) / 2) ∧
    (∀ g : Generated, g.blocks.map ImplBlock.body =
      [.forward (List.range g.arity), .forward (List.range g.arity),
       .spliced g.bodyTokens]) ∧
    (Generated.blocks ⟨"S", [], divCeil 0 2, ["b"], ["O"]⟩).map ImplBlock.body =
      [.forward [], .forward [], .spliced ["b"]] ∧
    (∀ ts : List Tok, ts ≠ [] → "," ∉ ts → numArgs ts = 1) ∧
    (∀ k : Nat, 1 < divCeil k 2 ↔ 3 ≤ k) ∧
    divCeil 2 2 = 1 := by
  refine ⟨?_, ?_, ?_, by rfl, ?_, ?_, by rfl⟩
  · intro name vis gens flds ta tb tq
    rfl
  · intro t
    rfl
  · intro g
    rfl
  · intro ts hne hnc
    unfold numArgs
    rw [if_neg, List.count_eq_zero.mpr hnc]
    simpa using hne
  · intro k
    unfold divCeil
    omega

theorem forward_count_is_ceil_half_token_count_w :
    impl_fn ⟨"W", "", [], [],
        [⟨"fn_args", .list ["&", "u8"]⟩, ⟨"fn_body", .list ["b"]⟩,
         ⟨"fn_output", .list ["O"]⟩]⟩ =
      .ok ⟨"W", ["&", "u8"], divCeil (["&", "u8"] : List Tok).length 2,
           ["b"], ["O"]⟩ ∧
    numArgs ["&", "u8"] = 1 ∧
    (1 < divCeil 3 2 ↔ 3 ≤ 3) :=
  ⟨forward_count_is_ceil_half_token_count.1 "W" "" [] [] ["&", "u8"] ["b"] ["O"],
   forward_count_is_ceil_half_token_count.2.2.2.2.1 ["&", "u8"]
     (by decide) (by decide),
   forward_count_is_ceil_half_token_count.2.2.2.2.2.1 3⟩

/-! C9 fixtures: the three well-formed attributes of `exInput`, in a shuffled
order. -/

def c9ArgsAttr : Attribute := ⟨"fn_args", .list exArgsToks⟩

def c9BodyAttr : Attribute := ⟨"fn_body", .list exBodyToks⟩

def c9OutAttr : Attribute := ⟨"fn_output", .list exOutToks⟩

def c9Shuffled : DeriveInput :=
  ⟨"Test", "", [], ["f64"], [c9BodyAttr, c9OutAttr, c9ArgsAttr]⟩

def c9Canonical : DeriveInput :=
  ⟨"Test", "", [], ["f64"], [c9ArgsAttr, c9BodyAttr, c9OutAttr]⟩

/-- C9: attribute lookup is first-match by name — the first attribute with
the wanted path wins, whatever follows it (so later duplicates are ignored)
— and the emitted output is invariant under reordering the three `fn_args`,
`fn_body`, `fn_output` attributes. -/
theorem lookup_first_match_and_order_free :
    (∀ (pre post : List Attribute) (a : Attribute) (nm : String),
      (∀ b ∈ pre, b.path ≠ nm) → a.path = nm →
      find_attr (pre ++ a :: post) nm = .ok a) ∧
    (∀ (name vis : String) (gens flds : List String) (ta tb tq : List Tok)
       (l : List Attribute),
      l.Perm [⟨"fn_args", .list ta⟩, ⟨"fn_body", .list tb⟩,
              ⟨"fn_output", .list tq⟩] →
      impl_fn ⟨name, vis, gens, flds, l⟩ =
        impl_fn ⟨name, vis, gens, flds,
          [⟨"fn_args", .list ta⟩, ⟨"fn_body", .list tb⟩,
           ⟨"fn_output", .list tq⟩]⟩) := by
  constructor
  · exact fun pre post a nm hpre hpa => find_attr_first_match pre post a nm hpre hpa
  · intro name vis gens flds ta tb tq l hperm
    have hsub : ∀ b ∈ l, b ∈ [(⟨"fn_args", .list ta⟩ : Attribute),
        ⟨"fn_body", .list tb⟩, ⟨"fn_output", .list tq⟩] :=
      fun b hb => hperm.subset hb
    have hA : find_attr l "fn_args" = .ok ⟨"fn_args", .list ta⟩ := by
      apply find_attr_unique l "fn_args" ⟨"fn_args", .list ta⟩
      · exact hperm.mem_iff.mpr (by simp)
      · rfl
      · intro b hb hbp
        have h3 := hsub b hb
        simp only [List.mem_cons, List.not_mem_nil, or_false] at h3
        rcases h3 with h | h | h
        · exact h
        · rw [h] at hbp
          simp at hbp
        · rw [h] at hbp
          simp at hbp
    have hB : find_attr l "fn_body" = .ok ⟨"fn_body", .list tb⟩ := by
      apply find_attr_unique l "fn_body" ⟨"fn_body", .list tb⟩
      · exact hperm.mem_iff.mpr (by simp)
      · rfl
      · intro b hb hbp
        have h3 := hsub b hb
        simp only [List.mem_cons, List.not_mem_nil, or_false] at h3
        rcases h3 with h | h | h
        · rw [h] at hbp
          simp at hbp
        · exact h
        · rw [h] at hbp
          simp at hbp
    have hO : find_attr l "fn_output" = .ok ⟨"fn_output", .list tq⟩ := by
      apply find_attr_unique l "fn_output" ⟨"fn_output", .list tq⟩
      · exact hperm.mem_iff.mpr (by simp)
      · rfl
      · intro b hb hbp
        have h3 := hsub b hb
        simp only [List.mem_cons, List.not_mem_nil, or_false] at h3
        rcases h3 with h | h | h
        · rw [h] at hbp
          simp at hbp
        · rw [h] at hbp
          simp at hbp
        · exact h
    apply impl_fn_congr
    · rfl
    · show getTokens l "fn_args" = _
      unfold getTokens
      rw [hA]
      rfl
    · show getTokens l "fn_body" = _
      unfold getTokens
      rw [hB]
      rfl
    · show getTokens l "fn_output" = _
      unfold getTokens
      rw [hO]
      rfl

theorem lookup_first_match_and_order_free_w :
    find_attr ([⟨"doc", .nameValue⟩] ++
        (⟨"fn_args", .list ["u8"]⟩ : Attribute) :: [⟨"fn_args", .list ["dup"]⟩])
        "fn_args" = .ok ⟨"fn_args", .list ["u8"]⟩ ∧
    impl_fn c9Shuffled = impl_fn c9Canonical :=
  ⟨lookup_first_match_and_order_free.1 [⟨"doc", .nameValue⟩]
      [⟨"fn_args", .list ["dup"]⟩] ⟨"fn_args", .list ["u8"]⟩ "fn_args"
      (by decide) rfl,
   lookup_first_match_and_order_free.2 "Test" "" [] ["f64"]
      exArgsToks exBodyToks exOutToks [c9BodyAttr, c9OutAttr, c9ArgsAttr]
      (by decide)⟩

end FnDerive
